import Mathlib

/-!
Verification of the resumable, rate-limited crawl in
`scripts/fetch-prices.js` (counter-strike-price-tracker).

The JavaScript source is shallowly embedded: pure helpers become Lean
functions; the `fetchAllPrices` while-loop becomes a step function
`loopStep` over an explicit `LoopState`, driven by a list of per-iteration
environment inputs (`LoopInput`: whether the time budget has elapsed at the
check, and the outcome of `fetchWithRetry` for that iteration).  Side
effects (`save(...)` calls, `delay(...)` waits) are recorded as an event
trace, and the way the run ends is an `Outcome`.  Timestamps are modelled
as integer milliseconds since the Unix epoch (UTC), as in JavaScript
`Date`; `new Date(string)` parsing is modelled by an already-parsed
`Option Int` (`none` = invalid date / NaN).
-/

namespace FetchPrices

/-! ### Constants (fetch-prices.js lines 8-12) -/

def DELAY_MS : Nat := 5000

def MAX_RETRIES : Nat := 5

def PAGE_SIZE : Nat := 10

def MAX_RUNTIME_MS : Nat := 90 * 60 * 1000

def SAVE_EVERY : Nat := 100

/-! ### getMostRecentMonday (lines 16-24)

Milliseconds arithmetic on UTC timestamps.  January 1 1970 was a Thursday,
so `getUTCDay = (4 + daysSinceEpoch) % 7` (0 = Sunday, ..., 6 = Saturday).
Flooring division (`Int.fdiv`) matches how a timestamp falls into a UTC
day for negative instants as well. -/

def msPerDay : Int := 86400000

def getMostRecentMonday (now : Int) : Int :=
  let d : Int := now.fdiv msPerDay
  let day : Int := (4 + d) % 7
  let daysSinceMonday : Int := (day + 6) % 7
  (d - daysSinceMonday) * msPerDay

/-! ### determineRunAction (lines 26-41) -/

inductive RunAction where
  | reset
  | resume
  | skip
deriving DecidableEq, Repr

/-- The metadata object read back from the checkpoint file, as seen by
`determineRunAction`.  `resume_from` is the raw JSON field (`none` when
absent); the code reads it as `metadata.resume_from || 0`.  `updated_at`
models `metadata.updated_at ? new Date(metadata.updated_at) : null`:
`none` = field absent/falsy, `some none` = present but unparsable
(`isNaN(updatedAt.getTime())`), `some (some t)` = parsed to instant `t`. -/
structure RunMetadata where
  resume_from : Option Int
  updated_at : Option (Option Int)
deriving DecidableEq, Repr

def determineRunAction (metadata : Option RunMetadata) (now : Int) : RunAction :=
  match metadata with
  | none => RunAction.reset
  | some md =>
    let resumeFrom : Int := md.resume_from.getD 0
    let updatedAt : Option Int :=
      match md.updated_at with
      | none => none
      | some parsed => parsed
    let monday : Int := getMostRecentMonday now
    match updatedAt with
    | none => RunAction.reset
    | some t =>
      let isThisWeek : Bool := decide (monday ≤ t)
      if decide (0 < resumeFrom) && !isThisWeek then RunAction.reset
      else if decide (0 < resumeFrom) && isThisWeek then RunAction.resume
      else if decide (resumeFrom = 0) && isThisWeek then RunAction.skip
      else RunAction.reset

/-- Modelled from the spec (section 4.2): the Run Planner decision table in
the spec's own words, used only to compare against `determineRunAction`. -/
def planSpec (metadata : Option RunMetadata) (now : Int) : RunAction :=
  match metadata with
  | none => RunAction.reset
  | some md =>
    match md.updated_at with
    | some none => RunAction.reset
    | none => RunAction.reset
    | some (some t) =>
      let rf : Int := md.resume_from.getD 0
      let boundary : Int := getMostRecentMonday now
      if 0 < rf then
        (if t < boundary then RunAction.reset else RunAction.resume)
      else if rf = 0 then
        (if boundary ≤ t then RunAction.skip else RunAction.reset)
      else RunAction.reset

/-- FORCE_FETCH override (lines 136-142): `if (forceFetch && runAction.action
!== "resume") runAction = { action: "reset" }`. -/
def effectiveRunAction (forceFetch : Bool) (computed : RunAction) : RunAction :=
  if forceFetch && !(computed = RunAction.resume) then RunAction.reset else computed

/-! ### The checkpoint artifact: save (lines 62-84) and loadExisting (43-60)

A JavaScript object with string keys is modelled as an insertion-ordered
association list; `Object.keys` is the list of first components.  The
artifact written by `save` is modelled structurally (the JSON text layer is
not modelled; key order in the serialized object is the list order). -/

/-- `prices[name] = cents` on a JavaScript object: overwrite when the key
is present, append otherwise. -/
def objSet (m : List (String × Int)) (k : String) (v : Int) : List (String × Int) :=
  if m.any (fun p => p.1 == k) then
    m.map (fun p => if p.1 == k then (p.1, v) else p)
  else m ++ [(k, v)]

/-- `Object.keys(prices).sort()` followed by re-insertion in sorted order
(save, lines 63-66).  JavaScript's default sort is lexicographic, matching
`String` order on these keys; with the object's keys pairwise distinct any
correct sort yields the same list. -/
def sortObj (m : List (String × Int)) : List (String × Int) :=
  (List.insertionSort (· ≤ ·) (m.map Prod.fst)).map (fun k => (k, (m.lookup k).getD 0))

structure SavedMetadata where
  updated_at : String
  currency : String
  item_count : Nat
  resume_from : Option Nat
deriving DecidableEq, Repr

structure SavedFile where
  metadata : SavedMetadata
  prices : List (String × Int)
deriving DecidableEq, Repr

/-- `save(prices, resumeFrom)` (lines 62-84): sort the keys, stamp
metadata, include `resume_from` only when strictly positive, overwrite the
artifact.  `nowIso` is the `new Date().toISOString()` stamp. -/
def save (nowIso : String) (prices : List (String × Int)) (resumeFrom : Nat) : SavedFile :=
  { metadata :=
      { updated_at := nowIso
        currency := "USD"
        item_count := (sortObj prices).length
        resume_from := if 0 < resumeFrom then some resumeFrom else none }
    prices := sortObj prices }

structure LoadResult where
  prices : List (String × Int)
  resumeFrom : Nat
  metadata : Option SavedMetadata
deriving DecidableEq, Repr

/-- `loadExisting()` (lines 43-60): `none` models a missing or unparsable
file (both yield the empty snapshot). -/
def loadExisting (file : Option SavedFile) : LoadResult :=
  match file with
  | none => { prices := [], resumeFrom := 0, metadata := none }
  | some data =>
    { prices := data.prices
      resumeFrom := data.metadata.resume_from.getD 0
      metadata := some data.metadata }

/-! ### fetchWithRetry (lines 120-132)

One call is driven by the list of successive attempt outcomes (`none` = the
attempt threw, `some r` = it resolved with `r`); the list has one entry per
allowed attempt (`retries + 1` entries for the source's `attempt =
0..retries` loop, so an empty tail means `attempt === retries`).  The
result is the list of backoff waits performed (in order) and `some r` when
an attempt succeeded, `none` when the final attempt's error propagates. -/

structure Item where
  hash_name : Option String
  sell_price : Option Int
deriving DecidableEq, Repr

structure PageResponse where
  total_count : Option Nat
  results : List Item
deriving DecidableEq, Repr

def fwrGo (attempt : Nat) : List (Option PageResponse) → List Nat × Option PageResponse
  | [] => ([], none)
  | o :: rest =>
    match o with
    | some r => ([], some r)
    | none =>
      if rest = [] then ([], none)
      else
        let p := fwrGo (attempt + 1) rest
        (DELAY_MS * 2 ^ attempt :: p.1, p.2)

def fetchWithRetry (outcomes : List (Option PageResponse)) : List Nat × Option PageResponse :=
  fwrGo 0 outcomes

/-! ### The fetchAllPrices loop (lines 174-257) -/

/-- `let totalCount = Infinity` then `totalCount = data.total_count`:
`none` = still `Infinity`; `some none` = latched `undefined` (the first
response had no `total_count`); `some (some n)` = latched `n`. -/
abbrev TotalCount := Option (Option Nat)

/-- JavaScript `start < totalCount`: true against `Infinity`, false
against `undefined` (NaN comparison), numeric otherwise. -/
def jsLt (start : Nat) (tc : TotalCount) : Bool :=
  match tc with
  | none => true
  | some none => false
  | some (some n) => decide (start < n)

structure LoopState where
  prices : List (String × Int)
  start : Nat
  totalCount : TotalCount
  rateLimitRetries : Nat
  itemsSinceLastSave : Nat
deriving DecidableEq, Repr

def loopCond (st : LoopState) : Bool :=
  jsLt st.start st.totalCount

inductive FetchOutcome where
  | ok (r : PageResponse)
  | err
deriving DecidableEq, Repr

/-- Environment of one loop iteration: whether `Date.now() - startTime >=
MAX_RUNTIME_MS` held at the top-of-loop check, and what `fetchWithRetry`
did (`err` = it exhausted its attempts and threw). -/
structure LoopInput where
  timeUp : Bool
  outcome : FetchOutcome
deriving DecidableEq, Repr

/-- Observable actions of the loop: a `save(prices, resumeFrom)` call
(recording its arguments; `save(prices)` is `resumeFrom = 0`) and a
`delay(ms)` wait. -/
inductive Event where
  | save (prices : List (String × Int)) (resumeFrom : Nat)
  | wait (ms : Nat)
deriving DecidableEq, Repr

/-- How a run of the loop ends.  `completed` covers both a false loop
condition and the `break` on a genuinely empty page — each falls through
to the final `save(prices)` (line 256).  `timeBudget` and `rateLimited`
are the early `return`s (lines 187, 212); `fatal` is the catch block
(lines 249-254) ending in `process.exit(1)`; `skipped` is the `skip`
branch (line 150); `fuelOut` marks an input list exhausted while the loop
still wanted to iterate (a modelling artifact, not a program outcome). -/
inductive Outcome where
  | completed
  | timeBudget
  | rateLimited
  | fatal
  | skipped
  | fuelOut
deriving DecidableEq, Repr

/-- `process.exit` status reached after the loop ends: the catch block
exits 1; every other path returns from `fetchAllPrices` and reaches
`process.exit(0)` in the `webSession` handler (line 287). -/
def exitCode : Outcome → Nat
  | Outcome.fatal => 1
  | _ => 0

/-- One accepted entry (lines 227-233): contribute only when `hash_name`
is truthy and `sell_price` is a number strictly greater than zero. -/
def addItem (prices : List (String × Int)) (it : Item) : List (String × Int) :=
  match it.hash_name, it.sell_price with
  | some name, some cents =>
    if name ≠ "" ∧ 0 < cents then objSet prices name cents else prices
  | _, _ => prices

inductive StepRes where
  | stop (events : List Event) (out : Outcome)
  | next (events : List Event) (st : LoopState)
deriving DecidableEq, Repr

def StepRes.events : StepRes → List Event
  | StepRes.stop ev _ => ev
  | StepRes.next ev _ => ev

def StepRes.nextState : StepRes → Option LoopState
  | StepRes.stop _ _ => none
  | StepRes.next _ st => some st

/-- One iteration of the `while (start < totalCount)` body (lines
182-248), taken with the loop condition already true. -/
def loopStep (st : LoopState) (inp : LoopInput) : StepRes :=
  if inp.timeUp then
    StepRes.stop [Event.save st.prices st.start] Outcome.timeBudget
  else
    match inp.outcome with
    | FetchOutcome.err =>
      StepRes.stop [Event.save st.prices st.start] Outcome.fatal
    | FetchOutcome.ok r =>
      let tc : TotalCount :=
        if st.totalCount = none then some r.total_count else st.totalCount
      if r.results.isEmpty then
        if tc.isSome && r.total_count == some 0 then
          let rlr := st.rateLimitRetries + 1
          if MAX_RETRIES ≤ rlr then
            StepRes.stop [Event.save st.prices st.start] Outcome.rateLimited
          else
            StepRes.next
              [Event.save st.prices st.start, Event.wait (60000 * 2 ^ (rlr - 1))]
              { st with totalCount := tc, rateLimitRetries := rlr }
        else
          StepRes.stop [Event.save st.prices 0] Outcome.completed
      else
        let prices := r.results.foldl addItem st.prices
        let start := st.start + PAGE_SIZE
        let items := st.itemsSinceLastSave + r.results.length
        let saveEv : List Event :=
          if SAVE_EVERY ≤ items then
            [Event.save prices (if jsLt start tc then start else 0)]
          else []
        let waitEv : List Event :=
          if jsLt start tc then [Event.wait DELAY_MS] else []
        StepRes.next (saveEv ++ waitEv)
          { prices := prices
            start := start
            totalCount := tc
            rateLimitRetries := 0
            itemsSinceLastSave := if SAVE_EVERY ≤ items then 0 else items }

/-- The whole `try { while ... }` plus the final `save(prices)` (line 256),
driven by one `LoopInput` per iteration. -/
def runLoop (st : LoopState) : List LoopInput → List Event × Outcome
  | [] =>
    if loopCond st then ([], Outcome.fuelOut)
    else ([Event.save st.prices 0], Outcome.completed)
  | inp :: rest =>
    if loopCond st then
      match loopStep st inp with
      | StepRes.stop ev out => (ev, out)
      | StepRes.next ev st' =>
        let p := runLoop st' rest
        (ev ++ p.1, p.2)
    else ([Event.save st.prices 0], Outcome.completed)

/-- The `SIGINT`/`SIGTERM` handler (lines 164-170): save the current
mapping at the current offset, then `process.exit(0)`. -/
def onExit (prices : List (String × Int)) (start : Nat) : List Event × Nat :=
  ([Event.save prices start], 0)

def initialState (prices : List (String × Int)) (start : Nat) : LoopState :=
  { prices := prices
    start := start
    totalCount := none
    rateLimitRetries := 0
    itemsSinceLastSave := 0 }

/-- `resumeFrom` as produced by `loadExisting` (`metadata?.resume_from ||
0`); the `resume` action only arises when it is strictly positive, so the
clamp to `Nat` is faithful on every reachable path. -/
def resumeFromOf (metadata : Option RunMetadata) : Nat :=
  match metadata with
  | none => 0
  | some md => (md.resume_from.getD 0).toNat

/-- `fetchAllPrices` after `loadExisting` (lines 134-258): plan the run,
apply the FORCE_FETCH override, then either skip (no events) or drive the
loop from the appropriate initial state. -/
def fetchAllPrices (filePrices : List (String × Int)) (metadata : Option RunMetadata)
    (forceFetch : Bool) (now : Int) (inputs : List LoopInput) : List Event × Outcome :=
  match effectiveRunAction forceFetch (determineRunAction metadata now) with
  | RunAction.skip => ([], Outcome.skipped)
  | RunAction.reset => runLoop (initialState [] 0) inputs
  | RunAction.resume => runLoop (initialState filePrices (resumeFromOf metadata)) inputs

/-- The page response whose empty results and zero `total_count` drive the
rate-limit branch (used repeatedly in the rate-limit theorems). -/
def rlInput : LoopInput :=
  { timeUp := false, outcome := FetchOutcome.ok { total_count := some 0, results := [] } }

/-! ### Helper lemmas -/

theorem runLoop_cons_stop (st : LoopState) (inp : LoopInput) (rest : List LoopInput)
    (ev : List Event) (out : Outcome) (hc : loopCond st = true)
    (hs : loopStep st inp = StepRes.stop ev out) :
    runLoop st (inp :: rest) = (ev, out) := by
  simp [runLoop, hc, hs]

theorem runLoop_cons_next (st st' : LoopState) (inp : LoopInput) (rest : List LoopInput)
    (ev : List Event) (hc : loopCond st = true)
    (hs : loopStep st inp = StepRes.next ev st') :
    runLoop st (inp :: rest) = (ev ++ (runLoop st' rest).1, (runLoop st' rest).2) := by
  simp [runLoop, hc, hs]

theorem runLoop_done (st : LoopState) (inputs : List LoopInput) (hc : loopCond st = false) :
    runLoop st inputs = ([Event.save st.prices 0], Outcome.completed) := by
  cases inputs <;> simp [runLoop, hc]

/-- A rate-limit iteration below the retry cap: checkpoint at the current
offset, bump the counter, schedule the doubled wait. -/
theorem loopStep_rl (st : LoopState) (h : ¬ st.totalCount = none)
    (hr : st.rateLimitRetries + 1 < MAX_RETRIES) :
    loopStep st rlInput =
      StepRes.next
        [Event.save st.prices st.start, Event.wait (60000 * 2 ^ st.rateLimitRetries)]
        { st with rateLimitRetries := st.rateLimitRetries + 1 } := by
  simp [loopStep, rlInput, h, Nat.not_le_of_lt hr, Option.isSome_iff_exists]
  cases hx : st.totalCount with
  | none => exact absurd hx h
  | some v => simp

theorem loopStep_rl_stop (st : LoopState) (h : ¬ st.totalCount = none)
    (hr : MAX_RETRIES ≤ st.rateLimitRetries + 1) :
    loopStep st rlInput =
      StepRes.stop [Event.save st.prices st.start] Outcome.rateLimited := by
  simp [loopStep, rlInput, h, hr, Option.isSome_iff_exists]
  cases hx : st.totalCount with
  | none => exact absurd hx h
  | some v => simp [hr]

/-- Every way the loop body stops the run performs exactly one `save` call
as its observable action. -/
theorem loopStep_stop_events (st : LoopState) (inp : LoopInput) (ev : List Event)
    (out : Outcome) (h : loopStep st inp = StepRes.stop ev out) :
    ∃ p rf, ev = [Event.save p rf] := by
  simp only [loopStep] at h
  repeat' first
    | split at h
    | dsimp only at h
  all_goals try (injection h with h1 h2; exact ⟨_, _, h1.symm⟩)
  all_goals injection h

/-- Whenever the loop run ends for a real program reason (that is, not by
exhausting the modelled input list), its very last observable action is a
`save` call. -/
theorem runLoop_last_save (st : LoopState) (inputs : List LoopInput)
    (h : (runLoop st inputs).2 ≠ Outcome.fuelOut) :
    ∃ p rf, (runLoop st inputs).1.getLast? = some (Event.save p rf) := by
  induction inputs generalizing st with
  | nil =>
    by_cases hc : loopCond st
    · simp [runLoop, hc] at h
    · exact ⟨st.prices, 0, by simp [runLoop, hc]⟩
  | cons inp rest ih =>
    by_cases hc : loopCond st
    · cases hs : loopStep st inp with
      | stop ev out =>
        obtain ⟨p, rf, rfl⟩ := loopStep_stop_events st inp ev out hs
        exact ⟨p, rf, by simp [runLoop_cons_stop st inp rest _ _ hc hs]⟩
      | next ev st' =>
        rw [runLoop_cons_next st st' inp rest ev hc hs] at h ⊢
        obtain ⟨p, rf, hp⟩ := ih st' (by simpa using h)
        refine ⟨p, rf, ?_⟩
        simp [List.getLast?_append, hp]
    · exact ⟨st.prices, 0, by simp [runLoop_done st _ (by simpa using hc)]⟩

theorem fwrGo_cons_none (a : Nat) (l : List (Option PageResponse)) (h : l ≠ []) :
    fwrGo a (none :: l)
      = (DELAY_MS * 2 ^ a :: (fwrGo (a + 1) l).1, (fwrGo (a + 1) l).2) := by
  cases l with
  | nil => exact absurd rfl h
  | cons o2 rest => rfl

theorem fwrGo_all_fail (k a : Nat) :
    fwrGo a (List.replicate (k + 1) (none : Option PageResponse)) =
      ((List.range k).map (fun i => DELAY_MS * 2 ^ (a + i)), none) := by
  induction k generalizing a with
  | zero => rfl
  | succ k ih =>
    have hne : List.replicate (k + 1) (none : Option PageResponse) ≠ [] := by simp
    rw [List.replicate_succ, fwrGo_cons_none a _ hne, ih (a + 1)]
    have hmap : (List.range k).map (fun i => DELAY_MS * 2 ^ (a + 1 + i))
        = (List.range k).map ((fun i => DELAY_MS * 2 ^ (a + i)) ∘ Nat.succ) :=
      List.map_congr_left (fun i _ => by
        show DELAY_MS * 2 ^ (a + 1 + i) = DELAY_MS * 2 ^ (a + (i + 1))
        rw [Nat.add_right_comm, Nat.add_assoc])
    simp [List.range_succ_eq_map, List.map_map, hmap]

theorem fwrGo_success (k a : Nat) (r : PageResponse) (rest : List (Option PageResponse)) :
    fwrGo a (List.replicate k none ++ some r :: rest) =
      ((List.range k).map (fun i => DELAY_MS * 2 ^ (a + i)), some r) := by
  induction k generalizing a with
  | zero => rfl
  | succ k ih =>
    have hne : List.replicate k (none : Option PageResponse) ++ some r :: rest ≠ [] := by
      simp
    rw [List.replicate_succ, List.cons_append, fwrGo_cons_none a _ hne, ih (a + 1)]
    have hmap : (List.range k).map (fun i => DELAY_MS * 2 ^ (a + 1 + i))
        = (List.range k).map ((fun i => DELAY_MS * 2 ^ (a + i)) ∘ Nat.succ) :=
      List.map_congr_left (fun i _ => by
        show DELAY_MS * 2 ^ (a + 1 + i) = DELAY_MS * 2 ^ (a + (i + 1))
        rw [Nat.add_right_comm, Nat.add_assoc])
    simp [List.range_succ_eq_map, List.map_map, hmap]

theorem lookup_map_pair (f : String → Int) (l : List String) (k : String) :
    (l.map (fun x => (x, f x))).lookup k = if k ∈ l then some (f k) else none := by
  induction l with
  | nil => rfl
  | cons x xs ih =>
    by_cases h : k = x
    · subst h
      simp [List.lookup]
    · have hb : (k == x) = false := beq_eq_false_iff_ne.mpr h
      simp [List.lookup, hb, ih, h]

theorem lookup_isSome_of_mem (m : List (String × Int)) (k : String)
    (h : k ∈ m.map Prod.fst) : (m.lookup k).isSome := by
  induction m with
  | nil => simp at h
  | cons p ps ih =>
    obtain ⟨x, y⟩ := p
    by_cases hk : k = x
    · subst hk
      simp [List.lookup]
    · have hb : (k == x) = false := beq_eq_false_iff_ne.mpr hk
      have hmem : k ∈ ps.map Prod.fst := by
        simp only [List.map_cons, List.mem_cons] at h
        exact h.resolve_left hk
      simp only [List.lookup, hb]
      exact ih hmem

theorem lookup_none_of_not_mem (m : List (String × Int)) (k : String)
    (h : ¬ k ∈ m.map Prod.fst) : m.lookup k = none := by
  induction m with
  | nil => rfl
  | cons p ps ih =>
    obtain ⟨x, y⟩ := p
    simp only [List.map_cons, List.mem_cons, not_or] at h
    have hb : (k == x) = false := beq_eq_false_iff_ne.mpr h.1
    simp only [List.lookup, hb]
    exact ih h.2

theorem sortObj_keys (m : List (String × Int)) :
    (sortObj m).map Prod.fst = List.insertionSort (· ≤ ·) (m.map Prod.fst) := by
  unfold sortObj
  rw [List.map_map]
  exact List.map_id _

theorem sortObj_sorted (m : List (String × Int)) :
    List.Sorted (· ≤ ·) ((sortObj m).map Prod.fst) := by
  rw [sortObj_keys]
  exact List.sorted_insertionSort _ _

theorem sortObj_lookup (m : List (String × Int)) (k : String) :
    (sortObj m).lookup k = m.lookup k := by
  unfold sortObj
  rw [lookup_map_pair]
  by_cases h : k ∈ List.insertionSort (· ≤ ·) (m.map Prod.fst)
  · rw [if_pos h]
    have hm : k ∈ m.map Prod.fst := ((List.perm_insertionSort _ _).mem_iff).mp h
    obtain ⟨v, hv⟩ := Option.isSome_iff_exists.mp (lookup_isSome_of_mem m k hm)
    rw [hv]
    rfl
  · rw [if_neg h]
    have hm : ¬ k ∈ m.map Prod.fst :=
      fun hc => h (((List.perm_insertionSort _ _).mem_iff).mpr hc)
    exact (lookup_none_of_not_mem m k hm).symm

/-! ### Claim theorems -/

/-- Claim C4 counterexample: a run suspended by time-budget exhaustion does
NOT exit with a status distinct from the success status — it exits with the
very same status as a completed run (0), as does the interrupt handler. -/
theorem claim_C4_counterexample :
    (runLoop (initialState [] 0) [{ timeUp := true, outcome := FetchOutcome.err }]).2
      = Outcome.timeBudget
    ∧ exitCode Outcome.timeBudget = exitCode Outcome.completed
    ∧ (onExit [] 0).2 = exitCode Outcome.completed := by
  exact ⟨by decide, rfl, rfl⟩

/-- Claim C4 amended: the exit status only distinguishes failure from
everything else: an unrecoverable fetch error exits with 1, while
completion, skip, time-budget suspension, rate-limit exhaustion and the
interrupt handler all exit with the success status 0. -/
theorem claim_C4 :
    (∀ o : Outcome, exitCode o = 1 ↔ o = Outcome.fatal)
    ∧ (∀ o : Outcome, exitCode o = 0 ∨ exitCode o = 1)
    ∧ (∀ (p : List (String × Int)) (s : Nat), (onExit p s).2 = 0) := by
  refine ⟨fun o => ?_, fun o => ?_, fun p s => rfl⟩ <;> cases o <;> simp [exitCode]

/-- Claim C6: saving any mapping and loading it back yields a prices
mapping with identical content (pointwise equal lookups), and the
serialized key order is sorted ascending whatever the insertion order of
the mapping passed to `save`. -/
theorem claim_C6 :
    (∀ (iso : String) (m : List (String × Int)) (rf : Nat) (k : String),
      (loadExisting (some (save iso m rf))).prices.lookup k = m.lookup k)
    ∧ (∀ (iso : String) (m : List (String × Int)) (rf : Nat),
      List.Sorted (· ≤ ·) ((loadExisting (some (save iso m rf))).prices.map Prod.fst)) := by
  constructor
  · intro iso m rf k
    exact sortObj_lookup m k
  · intro iso m rf
    exact sortObj_sorted m

/-- Claim C8: on failures `fetchWithRetry` retries with waits of base delay
times 2^attempt before each retry, up to `MAX_RETRIES + 1` attempts in
total; when the final allowed attempt also fails the error propagates, and
the loop then checkpoints at the current offset and the process exits with
the failure status 1. -/
theorem claim_C8 :
    (∀ (k : Nat) (r : PageResponse) (rest : List (Option PageResponse)),
      fetchWithRetry (List.replicate k none ++ some r :: rest)
        = ((List.range k).map (fun i => DELAY_MS * 2 ^ i), some r))
    ∧ (∀ n : Nat,
      fetchWithRetry (List.replicate (n + 1) none)
        = ((List.range n).map (fun i => DELAY_MS * 2 ^ i), none))
    ∧ (∀ st : LoopState,
      loopStep st { timeUp := false, outcome := FetchOutcome.err }
        = StepRes.stop [Event.save st.prices st.start] Outcome.fatal)
    ∧ exitCode Outcome.fatal = 1 := by
  refine ⟨fun k r rest => ?_, fun n => ?_, fun st => rfl, rfl⟩
  · simpa [fetchWithRetry] using fwrGo_success k 0 r rest
  · simpa [fetchWithRetry] using fwrGo_all_fail n 0

/-- Claim C7: every `save(prices, resumeFrom)` writes an artifact whose
prices keys are sorted lexicographically, whose `item_count` equals the
number of keys of the serialized prices mapping, and whose metadata has a
`resume_from` field exactly when the `resumeFrom` argument is positive. -/
theorem claim_C7 (iso : String) (m : List (String × Int)) (rf : Nat) :
    List.Sorted (· ≤ ·) ((save iso m rf).prices.map Prod.fst)
    ∧ (save iso m rf).metadata.item_count = (save iso m rf).prices.length
    ∧ ((save iso m rf).metadata.resume_from.isSome ↔ 0 < rf) := by
  refine ⟨?_, rfl, ?_⟩
  · have hkeys : (save iso m rf).prices.map Prod.fst
        = List.insertionSort (· ≤ ·) (m.map Prod.fst) := by
      show List.map Prod.fst (List.map _ _) = _
      rw [List.map_map]
      exact List.map_id _
    rw [hkeys]
    exact List.sorted_insertionSort (· ≤ ·) (m.map Prod.fst)
  · by_cases h : 0 < rf <;> simp [save, h]

/-- Claim C9: with the FORCE_FETCH switch enabled, a computed `reset` or
`skip` becomes `reset`, but a computed `resume` is never overridden: the
run still resumes from the loaded mapping and offset. -/
theorem claim_C9 :
    (∀ a : RunAction,
      effectiveRunAction true a
        = if a = RunAction.resume then RunAction.resume else RunAction.reset)
    ∧ (∀ (fp : List (String × Int)) (md : Option RunMetadata) (now : Int)
        (inputs : List LoopInput),
        determineRunAction md now = RunAction.resume →
        fetchAllPrices fp md true now inputs
          = runLoop (initialState fp (resumeFromOf md)) inputs) := by
  constructor
  · intro a; cases a <;> rfl
  · intro fp md now inputs h
    simp [fetchAllPrices, h, effectiveRunAction]

/-- The loop body on an empty result page: the branch depends only on
whether the response's `total_count` is exactly zero — by this point a
`totalCount` has always been latched (the latch happens on the same
iteration for the first response), so the `totalCount !== Infinity`
conjunct of the source's test can never fail. -/
theorem loopStep_empty (st : LoopState) (r : PageResponse) (h : r.results = []) :
    loopStep st { timeUp := false, outcome := FetchOutcome.ok r }
      = (if r.total_count = some 0 then
          (if MAX_RETRIES ≤ st.rateLimitRetries + 1 then
            StepRes.stop [Event.save st.prices st.start] Outcome.rateLimited
          else
            StepRes.next
              [Event.save st.prices st.start,
               Event.wait (60000 * 2 ^ st.rateLimitRetries)]
              { st with
                totalCount :=
                  if st.totalCount = none then some r.total_count else st.totalCount
                rateLimitRetries := st.rateLimitRetries + 1 })
        else StepRes.stop [Event.save st.prices 0] Outcome.completed) := by
  have hisSome :
      (if st.totalCount = none then some r.total_count else st.totalCount).isSome = true := by
    cases hx : st.totalCount with
    | none => simp
    | some v => simp [hx]
  simp only [loopStep]
  rw [h]
  simp only [List.isEmpty_nil, if_true, hisSome, Bool.true_and, Nat.add_sub_cancel]
  by_cases hz : r.total_count = some 0 <;> simp [hz]

/-- A non-empty page resets the rate-limit counter (line 225 of the
source). -/
theorem loopStep_nonempty_rlr (st : LoopState) (r : PageResponse) (ev : List Event)
    (st' : LoopState) (hne : ¬ r.results = [])
    (hstep : loopStep st { timeUp := false, outcome := FetchOutcome.ok r }
      = StepRes.next ev st') :
    st'.rateLimitRetries = 0 := by
  have hie : r.results.isEmpty = false := by
    cases hx : r.results with
    | nil => exact absurd hx hne
    | cons a l => rfl
  simp only [loopStep, hie] at hstep
  repeat' first
    | split at hstep
    | dsimp only at hstep
  all_goals first
    | exact StepRes.noConfusion hstep
    | (injection hstep with h1 h2; rw [← h2])

/-- A continuing iteration either resets the counter (non-empty page) or
bumps it by exactly one, and the bump only happens on an empty page. -/
theorem loopStep_next_rlr (st : LoopState) (r : PageResponse) (ev : List Event)
    (st' : LoopState)
    (hstep : loopStep st { timeUp := false, outcome := FetchOutcome.ok r }
      = StepRes.next ev st') :
    st'.rateLimitRetries = 0
      ∨ (st'.rateLimitRetries = st.rateLimitRetries + 1 ∧ r.results = []) := by
  by_cases hne : r.results = []
  · rw [loopStep_empty st r hne] at hstep
    split at hstep
    · split at hstep
      · exact StepRes.noConfusion hstep
      · injection hstep with h1 h2
        right
        rw [← h2]
        exact ⟨rfl, hne⟩
    · exact StepRes.noConfusion hstep
  · exact Or.inl (loopStep_nonempty_rlr st r ev st' hne hstep)

/-- The loop ends with the rate-limited outcome only when the bumped
counter has reached the retry cap. -/
theorem loopStep_rateLimited_counter (st : LoopState) (inp : LoopInput) (ev : List Event)
    (hstep : loopStep st inp = StepRes.stop ev Outcome.rateLimited) :
    MAX_RETRIES ≤ st.rateLimitRetries + 1 := by
  simp only [loopStep] at hstep
  repeat' first
    | split at hstep
    | dsimp only at hstep
  all_goals first
    | assumption
    | exact StepRes.noConfusion hstep
    | (injection hstep with h1 h2; exact Outcome.noConfusion h2)

/-- Claim C1 counterexample: on the very first response of a fresh run —
before any nonzero `totalCount` (or any `totalCount` at all) has been
observed — an empty page reporting `total_count = 0` is already given the
full rate-limit treatment: checkpoint at the current offset, rate-limit
counter bumped to 1, and a 60 s extended wait, instead of terminating
pagination normally. -/
theorem claim_C1_counterexample :
    loopStep (initialState [] 0) rlInput
      = StepRes.next [Event.save [] 0, Event.wait 60000]
          { prices := [], start := 0, totalCount := some (some 0),
            rateLimitRetries := 1, itemsSinceLastSave := 0 } := by
  decide

/-- Claim C1 (amended): an empty result page is treated as a rate-limit
signal (checkpoint, dedicated counter bump, extended doubling wait —
with the same offset retried when the loop condition still holds) if and
only if the response reports a `total_count` of exactly zero; the
previously-observed-`totalCount` condition is vacuous because the first
response latches `totalCount` before the test runs.  Every other empty
result page terminates pagination normally via the final save. -/
theorem claim_C1 (st : LoopState) (r : PageResponse) (h : r.results = []) :
    loopStep st { timeUp := false, outcome := FetchOutcome.ok r }
      = (if r.total_count = some 0 then
          (if MAX_RETRIES ≤ st.rateLimitRetries + 1 then
            StepRes.stop [Event.save st.prices st.start] Outcome.rateLimited
          else
            StepRes.next
              [Event.save st.prices st.start,
               Event.wait (60000 * 2 ^ st.rateLimitRetries)]
              { st with
                totalCount :=
                  if st.totalCount = none then some r.total_count else st.totalCount
                rateLimitRetries := st.rateLimitRetries + 1 })
        else StepRes.stop [Event.save st.prices 0] Outcome.completed) :=
  loopStep_empty st r h

theorem claim_C1_witness :
    loopStep
        { prices := [("B", 2)], start := 20, totalCount := some (some 50),
          rateLimitRetries := 2, itemsSinceLastSave := 7 }
        rlInput
      = StepRes.next
          [Event.save [("B", 2)] 20, Event.wait (60000 * 2 ^ 2)]
          { prices := [("B", 2)], start := 20, totalCount := some (some 50),
            rateLimitRetries := 3, itemsSinceLastSave := 7 } := by
  have h := claim_C1
    { prices := [("B", 2)], start := 20, totalCount := some (some 50),
      rateLimitRetries := 2, itemsSinceLastSave := 7 }
    { total_count := some 0, results := [] } rfl
  rw [rlInput, h]
  decide

/-- Claim C2: `determineRunAction` is a pure function of the metadata and
the current time, and agrees everywhere with the spec's decision table
(absent metadata or unparsable `updated_at` resets; stale positive
`resume_from` resets; current-week positive `resume_from` resumes;
current-week zero `resume_from` skips; everything else resets). -/
theorem claim_C2 (metadata : Option RunMetadata) (now : Int) :
    determineRunAction metadata now = planSpec metadata now := by
  cases metadata with
  | none => rfl
  | some md =>
    cases hu : md.updated_at with
    | none => simp [determineRunAction, planSpec, hu]
    | some p =>
      cases p with
      | none => simp [determineRunAction, planSpec, hu]
      | some t =>
        simp only [determineRunAction, planSpec, hu]
        by_cases h1 : (0 : Int) < md.resume_from.getD 0
        · by_cases h2 : getMostRecentMonday now ≤ t
          · simp [h1, h2, not_lt.mpr h2]
          · simp [h1, h2, not_le.mp h2]
        · by_cases h2 : getMostRecentMonday now ≤ t
          · by_cases h3 : md.resume_from.getD 0 = 0
            · simp [h1, h2, h3]
            · simp [h1, h2, h3]
          · by_cases h3 : md.resume_from.getD 0 = 0
            · simp [h1, h2, h3]
            · simp [h1, h2, h3]

/-- Claim C3: three consecutive rate-limit signals yield three strictly
increasing waits, each double the previous, starting at the 60 s base,
with a checkpoint at the current offset immediately before every wait;
and reaching the rate-limit retry cap ends the run gracefully (success
status, not the failure status) right after a checkpoint. -/
theorem claim_C3 :
    (∀ (st : LoopState) (n : Nat) (rest : List LoopInput),
      st.totalCount = some (some n) → st.start < n → st.rateLimitRetries = 0 →
      runLoop st (rlInput :: rlInput :: rlInput :: rest)
        = ([Event.save st.prices st.start, Event.wait 60000,
            Event.save st.prices st.start, Event.wait 120000,
            Event.save st.prices st.start, Event.wait 240000]
            ++ (runLoop { st with rateLimitRetries := 3 } rest).1,
           (runLoop { st with rateLimitRetries := 3 } rest).2)
        ∧ 60000 < 120000 ∧ 120000 < 240000
        ∧ 120000 = 2 * 60000 ∧ 240000 = 2 * 120000)
    ∧ (∀ (st : LoopState) (n : Nat) (rest : List LoopInput),
      st.totalCount = some (some n) → st.start < n →
      st.rateLimitRetries = MAX_RETRIES - 1 →
      runLoop st (rlInput :: rest)
        = ([Event.save st.prices st.start], Outcome.rateLimited)
        ∧ exitCode Outcome.rateLimited = 0
        ∧ exitCode Outcome.rateLimited ≠ exitCode Outcome.fatal) := by
  constructor
  · intro st n rest hc hlt hr
    obtain ⟨p, s, tc, rlr, isls⟩ := st
    simp only at hc hr
    subst hc hr
    refine ⟨?_, by norm_num, by norm_num, by norm_num, by norm_num⟩
    simp [runLoop, loopStep, loopCond, jsLt, rlInput, hlt, MAX_RETRIES]
  · intro st n rest hc hlt hr
    obtain ⟨p, s, tc, rlr, isls⟩ := st
    simp only at hc hr
    subst hc hr
    refine ⟨?_, rfl, by decide⟩
    simp [runLoop, loopStep, loopCond, jsLt, rlInput, hlt, MAX_RETRIES]

theorem claim_C3_witness :
    runLoop
        { prices := [], start := 0, totalCount := some (some 50),
          rateLimitRetries := 0, itemsSinceLastSave := 0 }
        (rlInput :: rlInput :: rlInput :: [])
      = ([Event.save [] 0, Event.wait 60000, Event.save [] 0, Event.wait 120000,
          Event.save [] 0, Event.wait 240000]
          ++ (runLoop
              { prices := [], start := 0, totalCount := some (some 50),
                rateLimitRetries := 3, itemsSinceLastSave := 0 } []).1,
         (runLoop
             { prices := [], start := 0, totalCount := some (some 50),
               rateLimitRetries := 3, itemsSinceLastSave := 0 } []).2) := by
  exact (claim_C3.1
    { prices := [], start := 0, totalCount := some (some 50),
      rateLimitRetries := 0, itemsSinceLastSave := 0 } 50 [] rfl (by decide) rfl).1

/-- Claim C5: every genuine termination of the loop run has a `save` call
as its very last observable action; the interrupt handler saves the
current mapping and offset; and the single exception is the `skip`
action, which terminates the run with no events at all. -/
theorem claim_C5 :
    (∀ (st : LoopState) (inputs : List LoopInput),
      (runLoop st inputs).2 ≠ Outcome.fuelOut →
      ∃ p rf, (runLoop st inputs).1.getLast? = some (Event.save p rf))
    ∧ (∀ (p : List (String × Int)) (s : Nat), (onExit p s).1 = [Event.save p s])
    ∧ (∀ (fp : List (String × Int)) (md : Option RunMetadata) (ff : Bool) (now : Int)
        (inputs : List LoopInput),
        effectiveRunAction ff (determineRunAction md now) = RunAction.skip →
        fetchAllPrices fp md ff now inputs = ([], Outcome.skipped)) := by
  refine ⟨runLoop_last_save, fun p s => rfl, fun fp md ff now inputs h => ?_⟩
  simp [fetchAllPrices, h]

theorem claim_C5_witness :
    (∃ p rf,
      (runLoop (initialState [] 0) [rlInput]).1.getLast? = some (Event.save p rf))
    ∧ fetchAllPrices []
        (some { resume_from := some 0, updated_at := some (some 0) }) false 0 []
        = ([], Outcome.skipped) := by
  constructor
  · exact claim_C5.1 (initialState [] 0) [rlInput] (by decide)
  · exact claim_C5.2.2 []
      (some { resume_from := some 0, updated_at := some (some 0) }) false 0 []
      (by decide)

/-- Claim C10: every non-empty result page resets the rate-limit counter
to zero; a rate-limit signal arriving with the counter at zero waits the
60 s base again; a continuing iteration either resets the counter or bumps
it by one, the bump occurring only on an empty page; and the run ends
rate-limited only once the bumped counter reaches the cap — that is, only
after `MAX_RETRIES` consecutive rate-limit signals with no intervening
non-empty page. -/
theorem claim_C10 :
    (∀ (st : LoopState) (r : PageResponse) (ev : List Event) (st' : LoopState),
      ¬ r.results = [] →
      loopStep st { timeUp := false, outcome := FetchOutcome.ok r }
        = StepRes.next ev st' →
      st'.rateLimitRetries = 0)
    ∧ (∀ st : LoopState, st.rateLimitRetries = 0 → ¬ st.totalCount = none →
      loopStep st rlInput
        = StepRes.next [Event.save st.prices st.start, Event.wait 60000]
            { st with rateLimitRetries := 1 })
    ∧ (∀ (st : LoopState) (inp : LoopInput) (ev : List Event),
      loopStep st inp = StepRes.stop ev Outcome.rateLimited →
      MAX_RETRIES ≤ st.rateLimitRetries + 1)
    ∧ (∀ (st : LoopState) (r : PageResponse) (ev : List Event) (st' : LoopState),
      loopStep st { timeUp := false, outcome := FetchOutcome.ok r }
        = StepRes.next ev st' →
      st'.rateLimitRetries = 0
        ∨ (st'.rateLimitRetries = st.rateLimitRetries + 1 ∧ r.results = [])) := by
  refine ⟨loopStep_nonempty_rlr, fun st h0 hn => ?_,
    loopStep_rateLimited_counter, loopStep_next_rlr⟩
  have h := loopStep_rl st hn (by rw [h0]; decide)
  rw [h0] at h
  simpa using h

theorem claim_C10_witness :
    LoopState.rateLimitRetries
        { prices := [("A", 100)], start := 10, totalCount := some (some 50),
          rateLimitRetries := 0, itemsSinceLastSave := 1 } = 0
    ∧ loopStep
        { prices := [], start := 0, totalCount := some (some 50),
          rateLimitRetries := 0, itemsSinceLastSave := 0 } rlInput
        = StepRes.next [Event.save [] 0, Event.wait 60000]
            { prices := [], start := 0, totalCount := some (some 50),
              rateLimitRetries := 1, itemsSinceLastSave := 0 }
    ∧ MAX_RETRIES ≤ 4 + 1 := by
  refine ⟨?_, ?_, ?_⟩
  · exact claim_C10.1
      { prices := [], start := 0, totalCount := some (some 50),
        rateLimitRetries := 3, itemsSinceLastSave := 0 }
      { total_count := some 50,
        results := [{ hash_name := some "A", sell_price := some 100 }] }
      [Event.wait DELAY_MS]
      { prices := [("A", 100)], start := 10, totalCount := some (some 50),
        rateLimitRetries := 0, itemsSinceLastSave := 1 }
      (by decide) (by decide)
  · have h := claim_C10.2.1
      { prices := [], start := 0, totalCount := some (some 50),
        rateLimitRetries := 0, itemsSinceLastSave := 0 } rfl (by decide)
    simpa using h
  · exact claim_C10.2.2.1
      { prices := [], start := 0, totalCount := some (some 50),
        rateLimitRetries := 4, itemsSinceLastSave := 0 } rlInput
      [Event.save [] 0] (by decide)

theorem claim_C9_witness :
    determineRunAction (some { resume_from := some 5, updated_at := some (some 0) }) 0
      = RunAction.resume
    ∧ fetchAllPrices [("A", 1)]
        (some { resume_from := some 5, updated_at := some (some 0) }) true 0 []
        = runLoop (initialState [("A", 1)] 5) [] :=
  ⟨by decide,
   claim_C9.2 [("A", 1)] (some { resume_from := some 5, updated_at := some (some 0) }) 0 []
     (by decide)⟩

end FetchPrices
